import Mathlib

/-!
Shallow embedding of `src/utils/client.ts` (NucleusClient): the rotating
auth-token logic (`authToken`, `_isValidHash`) and the dispatch layer
(`commandHandler`, `registerEvents` / `eventCapture` with Node's
once/on emitter semantics).

Conventions of the embedding:
- A wall-clock reading (`new Date()` at the moment `authToken` runs) is a
  `JsDate`: its epoch milliseconds plus the calendar components the code
  reads (`getDate()`, `getHours()`, `getMinutes()`).  The two `new Date()`
  calls inside one `authToken` invocation are modelled as the same instant.
- JavaScript `%` on numbers is truncated-division remainder (`Int.tmod`),
  and template-literal interpolation of an integer is `toString` on `Int`
  (so `-1` renders as "-1").
- `crypto.createHash("sha256")...digest("hex")` is an opaque library
  function; it is a parameter `sha256 : String → String` of the
  definitions, since no claim depends on the internals of SHA-256.
- A JS value that is either a boolean or the `authHash` object is an
  `AuthResult`; JS truthiness of that value is `jsTruthy`.
- The optional `test` parameter is `Option String`; `test ? a : b`
  branches on `strTruthy` (undefined and "" are falsy).
-/

namespace Nucleus

/-- One wall-clock reading: epoch milliseconds plus the calendar
components the code extracts from it. -/
structure JsDate where
  ms : Nat
  day : Nat
  hour : Nat
  minute : Nat
deriving DecidableEq, Repr

/-- The `authHash` field of `NucleusClient`:
`{ now: string; prev: string; expires: Date }` (the Date kept as epoch ms). -/
structure AuthHash where
  now : String
  prev : String
  expires : Nat
deriving DecidableEq, Repr

/-- A JS value that is either a boolean or the credential object, the
return type of `authToken`. -/
inductive AuthResult where
  | b (v : Bool)
  | cred (c : AuthHash)
deriving DecidableEq, Repr

/-- JS truthiness of an `AuthResult`: an object is always truthy. -/
def jsTruthy : AuthResult → Bool
  | .b v => v
  | .cred _ => true

/-- JS truthiness of `test : string | undefined`: `undefined` and `""`
are falsy. -/
def strTruthy : Option String → Bool
  | none => false
  | some t => !(t == "")

/-- `_isValidHash(hash)`: `hash === this.authHash.now || hash === this.authHash.prev`. -/
def _isValidHash (s : AuthHash) (hash : String) : Bool :=
  hash == s.now || hash == s.prev

/-- The string `` `${auth}${date.getDate()}${date.getHours()}${date.getMinutes()}` ``. -/
def toHashMsg (auth : String) (d : JsDate) : String :=
  auth ++ toString d.day ++ toString d.hour ++ toString d.minute

/-- The string
`` `${auth}${date.getDate()}${date.getHours()}${(date.getMinutes() - 1) % 60}` ``.
JS `%` is truncated remainder, so at minute 0 the last component is `-1`. -/
def prevMinuteMsg (auth : String) (d : JsDate) : String :=
  auth ++ toString d.day ++ toString d.hour ++
    toString (Int.tmod ((d.minute : Int) - 1) 60)

/-- `test ? this._isValidHash(test) : this.authHash`, shared tail of both
branches of `authToken`. -/
def authRespond (s : AuthHash) (test : Option String) : AuthResult :=
  if strTruthy test then .b (_isValidHash s (test.getD "")) else .cred s

/-- Outcome of one `authToken` call: the JS return value, the (possibly
updated) `authHash` field, and the messages logged on this call. -/
structure AuthStep where
  result : AuthResult
  state : AuthHash
  logs : List String
deriving DecidableEq, Repr

/-- `authToken(test?)` of `NucleusClient`, as a function of the hash
function, the environment variable `NUCLEUS_AUTH`, the current wall-clock
reading, the optional `test` argument and the stored `authHash`.  The
guard `if (!auth)` is JS truthiness on `string | undefined`: both an
unset variable (`none`) and the empty string take the error path, logging
and returning `false` with the state untouched.  The function is total:
no path of the source throws. -/
def authToken (sha256 : String → String) (env : Option String) (d : JsDate)
    (test : Option String) (s : AuthHash) : AuthStep :=
  if d.ms < s.expires then
    ⟨authRespond s test, s, []⟩
  else
    match env with
    | none => ⟨.b false, s, ["No auth token provided in environment"]⟩
    | some auth =>
      if auth = "" then
        ⟨.b false, s, ["No auth token provided in environment"]⟩
      else
        let hash := sha256 (toHashMsg auth d)
        let prevHash := sha256 (prevMinuteMsg auth d)
        let s' : AuthHash := { now := hash, prev := prevHash, expires := d.ms + 60000 }
        ⟨authRespond s' test, s', []⟩

/-!
Dispatch layer.  `commandHandler(interaction)` looks the command name up
in `this.commands` and calls its `callback` WITHOUT `await` inside a
`try`/`catch`: a synchronous throw is caught (logged, then one
best-effort notification: `editReply` if `interaction.replied`, else
`followUp`, neither awaited), while a rejected promise from an async
callback is never observed by the `catch` and becomes an unhandled
rejection.  The embedding records the observable effects in order, whether
an exception escapes `commandHandler` synchronously, and how many promise
rejections are left unobserved.
-/

/-- How a command callback's invocation behaves, from the dispatcher's
point of view: returns normally, throws synchronously, or returns a
promise that later rejects. -/
inductive CbOutcome where
  | ok
  | throws
  | rejects
deriving DecidableEq, Repr

/-- The fields of the `interaction` that `commandHandler` reads. -/
structure Interaction where
  isCmd : Bool
  commandName : String
  replied : Bool
deriving DecidableEq, Repr

/-- Observable effects of one `commandHandler` call, in program order. -/
inductive Effect where
  | callbackRun (name : String)
  | logError
  | editReply
  | followUp
deriving DecidableEq, Repr

/-- Outcome of one `commandHandler` call: the effects it performed, whether
an exception crossed its boundary synchronously, and how many promise
rejections were left unobserved (unhandled). -/
structure DispatchResult where
  effects : List Effect
  syncThrow : Bool
  unobservedRejections : Nat
deriving DecidableEq, Repr

/-- `this.commands` is the object literal `{ ping, summary }`, which
inherits from `Object.prototype`: `this.commands[name]` for a name that
is no own property still yields a truthy inherited function (or, for
`__proto__`, the prototype object) when `name` is one of these keys.
Reading `.callback` on such a value gives `undefined`, and calling it
throws a `TypeError` synchronously. -/
def objectProtoKeys : List String :=
  ["constructor", "hasOwnProperty", "isPrototypeOf", "propertyIsEnumerable",
   "toLocaleString", "toString", "valueOf", "__proto__",
   "__defineGetter__", "__defineSetter__", "__lookupGetter__", "__lookupSetter__"]

/-- `commandHandler(interaction)`.  `commands` is the own-property part of
`this.commands`: `none` when the name is no own property of the registry,
otherwise the outcome of that command's callback on this interaction.
For a registry-absent name the JS lookup `this.commands[commandName]`
still consults the prototype chain: an `Object.prototype` key is truthy,
so the dispatch proceeds, `.callback` is `undefined`, and the call throws
a `TypeError` inside the `try` — caught, logged, and answered with the
failure notification.  `notifyFails` says whether the (un-awaited)
`editReply`/`followUp` notification call itself rejects. -/
def commandHandler (commands : String → Option CbOutcome) (notifyFails : Bool)
    (i : Interaction) : DispatchResult :=
  if !i.isCmd then ⟨[], false, 0⟩
  else
    match commands i.commandName with
    | none =>
      if i.commandName ∈ objectProtoKeys then
        ⟨[.logError, if i.replied then .editReply else .followUp], false,
          if notifyFails then 1 else 0⟩
      else ⟨[], false, 0⟩
    | some outcome =>
      match outcome with
      | .ok => ⟨[.callbackRun i.commandName], false, 0⟩
      | .throws =>
        ⟨[.callbackRun i.commandName, .logError,
          if i.replied then .editReply else .followUp], false,
          if notifyFails then 1 else 0⟩
      | .rejects => ⟨[.callbackRun i.commandName], false, 1⟩

/-!
Event layer.  `registerEvents` subscribes each event file's callback,
wrapped by `eventCapture`, via Node's `emitter.once` (when `event.once`)
or `emitter.on`.  Node semantics embedded here: `emit` iterates over a
snapshot of the listeners registered for the event, and a `once` listener
is removed before its invocation, so it can never fire again.  An
unwrapped listener that throws would abort the iteration of the remaining
listeners of that emission; `eventCapture` awaits the callback inside
`try`/`catch`, so both throws and rejections are caught and logged and the
wrapped listener never throws.
-/

/-- One live subscription of the emitter: a unique id, the event name it
listens to, and whether it was registered via `once`. -/
structure Subscription where
  id : Nat
  event : String
  once : Bool
deriving DecidableEq, Repr

/-- Whether a wrapped listener invocation throws out of the wrapper. -/
inductive RunResult where
  | normal
  | thrown
deriving DecidableEq, Repr

/-- `eventCapture(name, callback)` applied to one invocation: the callback's
failure (throw or rejection — both reach the `catch`, the callback is
awaited) is logged and never escapes the wrapper. -/
def eventCapture (name : String) (out : CbOutcome) : RunResult × List String :=
  match out with
  | .ok => (.normal, [])
  | .throws => (.normal, ["Error in event " ++ name ++ " callback"])
  | .rejects => (.normal, ["Error in event " ++ name ++ " callback"])

/-- Run the snapshot of listeners of one emission in order.  `names` maps a
subscription id to the name `eventCapture` was given for it (the event
file name), `behavior` to the callback's outcome on this invocation.  A
listener that throws out of its wrapper aborts the remaining listeners of
this emission (Node would propagate the exception out of `emit`). -/
def runListeners (names : Nat → String) (behavior : Nat → CbOutcome) :
    List Subscription → List Nat × List String
  | [] => ([], [])
  | sub :: rest =>
    match eventCapture (names sub.id) (behavior sub.id) with
    | (.thrown, logs) => ([sub.id], logs)
    | (.normal, logs) =>
      let (ids, logs') := runListeners names behavior rest
      (sub.id :: ids, logs ++ logs')

/-- One `emit(ev)` of the Node emitter: the snapshot of listeners for `ev`
runs (through `runListeners`), and the `once` listeners among them are
removed from the subscription list; the resulting state, the invoked ids
and the collected logs. -/
def emitRun (names : Nat → String) (behavior : Nat → CbOutcome)
    (s : List Subscription) (ev : String) :
    List Subscription × List Nat × List String :=
  let r := runListeners names behavior (s.filter (fun sub => sub.event == ev))
  (s.filter (fun sub => !(sub.event == ev && sub.once)), r.1, r.2)

/-- A sequence of `emit` calls, collecting every listener invocation. -/
def runTrace (names : Nat → String) (behavior : Nat → CbOutcome)
    (s : List Subscription) : List String → List Subscription × List Nat
  | [] => (s, [])
  | ev :: rest =>
    let r := emitRun names behavior s ev
    let (s'', rest') := runTrace names behavior r.1 rest
    (s'', r.2.1 ++ rest')

/-- One event file's default export, the parts `registerEvents` reads:
`{ event, once, callback }` plus the file name it was loaded from. -/
structure EventFile where
  file : String
  event : String
  once : Bool
deriving DecidableEq, Repr

/-- `registerEvents`: each event file is subscribed (wrapped) via `once`
or `on` according to its `once` flag; subscription ids are the emitter's
registration order. -/
def registerEvents (files : List EventFile) : List Subscription :=
  files.enum.map (fun p => ⟨p.1, p.2.event, p.2.once⟩)

end Nucleus

namespace Nucleus

example :
    authToken (fun m => "#" ++ m) (some "s3cr3t") ⟨1000, 10, 14, 5⟩ none ⟨"", "", 0⟩ =
      ⟨.cred ⟨"#s3cr3t10145", "#s3cr3t10144", 61000⟩, ⟨"#s3cr3t10145", "#s3cr3t10144", 61000⟩, []⟩ := by
  decide

example :
    authToken (fun m => "#" ++ m) (some "s3cr3t") ⟨1000, 10, 14, 0⟩ none ⟨"", "", 0⟩ =
      ⟨.cred ⟨"#s3cr3t10140", "#s3cr3t1014-1", 61000⟩, ⟨"#s3cr3t10140", "#s3cr3t1014-1", 61000⟩, []⟩ := by
  decide

/-- `_isValidHash` is the boolean of exact full-string equality with
`now` or `prev`. -/
lemma _isValidHash_eq_decide (s : AuthHash) (t : String) :
    _isValidHash s t = decide (t = s.now ∨ t = s.prev) := by
  by_cases h1 : t = s.now <;> by_cases h2 : t = s.prev <;>
    simp [_isValidHash, h1, h2]

/-- The hash function used in closed witnesses. -/
def wSha (m : String) : String := "#" ++ m

/-- C1, counterexample: the claim quantifies over every token string, but
for the empty token `authToken` takes the falsy branch and returns the
credential object rather than the boolean verdict of the comparison.  The
state `⟨"", "", 0⟩` is the client's initial state (construction at epoch
0), hence reachable, and the secret is configured. -/
theorem authToken_validate_iff_cex :
    ¬ ((authToken wSha (some "s") ⟨1000, 10, 14, 5⟩ (some "") ⟨"", "", 0⟩).result =
        .b (decide
          ("" = (authToken wSha (some "s") ⟨1000, 10, 14, 5⟩ (some "") ⟨"", "", 0⟩).state.now ∨
           "" = (authToken wSha (some "s") ⟨1000, 10, 14, 5⟩ (some "") ⟨"", "", 0⟩).state.prev))) := by
  decide

/-- C1, amended: with the secret configured as a NONEMPTY string (an
empty `NUCLEUS_AUTH` is falsy, so `if (!auth)` treats it as missing), for
every NONEMPTY token `t` and every rotator state, `authToken(t)` returns
the boolean that is true iff `t` is exactly equal to `current` or
`previous` of the up-to-date credential (the state after the lazy refresh
of this very call). -/
theorem authToken_validate_iff (sha256 : String → String) (a : String) (d : JsDate)
    (t : String) (s : AuthHash) (ha : a ≠ "") (ht : t ≠ "") :
    (authToken sha256 (some a) d (some t) s).result =
      .b (decide (t = (authToken sha256 (some a) d (some t) s).state.now ∨
        t = (authToken sha256 (some a) d (some t) s).state.prev)) := by
  have hts : strTruthy (some t) = true := by simp [strTruthy, ht]
  by_cases h : d.ms < s.expires <;>
    simp [authToken, h, ha, authRespond, hts, _isValidHash_eq_decide]

/-- C1, witness at a concrete nonempty secret, nonempty token and
reachable state. -/
theorem authToken_validate_iff_witness :
    "x" ≠ "" ∧
    (authToken wSha (some "s") ⟨1000, 10, 14, 5⟩ (some "x") ⟨"", "", 0⟩).result =
      .b (decide
        ("x" = (authToken wSha (some "s") ⟨1000, 10, 14, 5⟩ (some "x") ⟨"", "", 0⟩).state.now ∨
         "x" = (authToken wSha (some "s") ⟨1000, 10, 14, 5⟩ (some "x") ⟨"", "", 0⟩).state.prev)) :=
  ⟨by decide,
   authToken_validate_iff wSha "s" ⟨1000, 10, 14, 5⟩ "x" ⟨"", "", 0⟩ (by decide) (by decide)⟩

/-- C2, counterexample: at minute 0 the previous-minute message does NOT
use minute 59 — JS `(0 - 1) % 60` is `-1`, so the message ends in `"-1"`
instead of `"59"`. -/
theorem prevMinuteMsg_wrap_cex :
    ¬ (prevMinuteMsg "s" ⟨0, 10, 14, 0⟩ = toHashMsg "s" ⟨0, 10, 14, 59⟩) := by
  decide

/-- C2, amended: for minutes `1 ≤ m ≤ 59`, the previous-minute message is
the canonical message with minute `m - 1` and the same day and hour; at
`m = 0` the day and hour are still unchanged but the minute component is
the string `"-1"` (truncated remainder, no wrap into `[0,59]`). -/
theorem prevMinuteMsg_spec (a : String) (d : JsDate) (hm : d.minute ≤ 59) :
    (1 ≤ d.minute →
      prevMinuteMsg a d = toHashMsg a ⟨d.ms, d.day, d.hour, d.minute - 1⟩) ∧
    (d.minute = 0 →
      prevMinuteMsg a d = a ++ toString d.day ++ toString d.hour ++ "-1") := by
  constructor
  · intro h1
    unfold prevMinuteMsg toHashMsg
    have h : Int.tmod ((d.minute : Int) - 1) 60 = ((d.minute - 1 : Nat) : Int) := by
      have he : ((d.minute : Int) - 1) = ((d.minute - 1 : Nat) : Int) := by omega
      rw [he, show ((60 : Int)) = ((60 : Nat) : Int) from rfl,
        show Int.tmod ((d.minute - 1 : Nat) : Int) (((60 : Nat)) : Int) =
          (((d.minute - 1) % 60 : Nat) : Int) from rfl]
      congr 1
      omega
    rw [h]
    rfl
  · intro h0
    unfold prevMinuteMsg
    rw [h0]
    rfl

/-- C2, witness: minute 7 rolls back to minute 6 with day and hour intact,
and minute 0 yields the `"-1"` component. -/
theorem prevMinuteMsg_spec_witness :
    prevMinuteMsg "s" ⟨0, 10, 14, 7⟩ = toHashMsg "s" ⟨0, 10, 14, 6⟩ ∧
    prevMinuteMsg "s" ⟨0, 10, 14, 0⟩ =
      "s" ++ toString (10 : Nat) ++ toString (14 : Nat) ++ "-1" :=
  ⟨(prevMinuteMsg_spec "s" ⟨0, 10, 14, 7⟩ (by decide)).1 (by decide),
   (prevMinuteMsg_spec "s" ⟨0, 10, 14, 0⟩ (by decide)).2 rfl⟩

/-- C3: for the empty-string token, `authToken("")` skips the hash
comparison (`""` is falsy) and returns the full credential object — a
truthy value containing the current and previous hashes — whenever the
cached credential is unexpired or the secret is available (available in
the code's sense: set AND nonempty, since `if (!auth)` fails generation
for an empty secret). -/
theorem authToken_empty_token (sha256 : String → String) (env : Option String)
    (d : JsDate) (s : AuthHash)
    (h : d.ms < s.expires ∨ ∃ a, env = some a ∧ a ≠ "") :
    (authToken sha256 env d (some "") s).result =
      .cred (authToken sha256 env d (some "") s).state ∧
    jsTruthy (authToken sha256 env d (some "") s).result = true := by
  have hf : strTruthy (some "") = false := rfl
  by_cases hc : d.ms < s.expires
  · simp [authToken, hc, authRespond, hf, jsTruthy]
  · rcases h with h | ⟨a, ha, hane⟩
    · exact absurd h hc
    · subst ha
      simp [authToken, hc, hane, authRespond, hf, jsTruthy]

/-- C3, witness: empty token against an expired cache with the secret
configured and nonempty. -/
theorem authToken_empty_token_witness :
    (authToken wSha (some "s3cr3t") ⟨1000, 10, 14, 5⟩ (some "") ⟨"", "", 0⟩).result =
      .cred (authToken wSha (some "s3cr3t") ⟨1000, 10, 14, 5⟩ (some "") ⟨"", "", 0⟩).state ∧
    jsTruthy (authToken wSha (some "s3cr3t") ⟨1000, 10, 14, 5⟩ (some "") ⟨"", "", 0⟩).result = true :=
  authToken_empty_token wSha (some "s3cr3t") ⟨1000, 10, 14, 5⟩ ⟨"", "", 0⟩
    (Or.inr ⟨"s3cr3t", rfl, by decide⟩)

/-- C4: when generation runs (cache expired) and the secret is missing
from the environment, `authToken` logs the missing-secret error and
returns `false` for every token (and for no token), leaving the state
untouched; being a total function of the embedding, no exception crosses
to the caller (no path of the source throws). -/
theorem authToken_missing_secret (sha256 : String → String) (d : JsDate)
    (test : Option String) (s : AuthHash) (hexp : s.expires ≤ d.ms) :
    authToken sha256 none d test s =
      ⟨.b false, s, ["No auth token provided in environment"]⟩ := by
  simp [authToken, Nat.not_lt.mpr hexp]

/-- C4, witness: any token is rejected when the secret is absent. -/
theorem authToken_missing_secret_witness :
    authToken wSha none ⟨1000, 10, 14, 5⟩ (some "anything") ⟨"h1", "h0", 500⟩ =
      ⟨.b false, ⟨"h1", "h0", 500⟩, ["No auth token provided in environment"]⟩ :=
  authToken_missing_secret wSha ⟨1000, 10, 14, 5⟩ (some "anything") ⟨"h1", "h0", 500⟩
    (by decide)

/-- C5: recomputation at time `T` (expired cache, secret `a` present) sets
`current` to the hash of the secret concatenated with `T`'s day-of-month,
hour and minute (decimal, no separators) and `expiresAt` to `T + 60s`;
and in the concrete scenario — secret `"s3cr3t"`, day 10, hour 14,
minute 5 — `current` is the hash of `"s3cr3t"+"10"+"14"+"5"`, and after a
rotation at minute 6 that same value is the new `previous` and still
validates (the hypothesis that the digest of the scenario message is
nonempty reflects that a SHA-256 hex digest is a 64-character string).
The secret must be nonempty: an empty `NUCLEUS_AUTH` fails the `!auth`
guard and generation does not run. -/
theorem authToken_recompute (sha256 : String → String) (a : String) (d : JsDate)
    (s : AuthHash) (hexp : s.expires ≤ d.ms) (ha : a ≠ "") :
    ((authToken sha256 (some a) d none s).state.now =
        sha256 (a ++ toString d.day ++ toString d.hour ++ toString d.minute) ∧
      (authToken sha256 (some a) d none s).state.expires = d.ms + 60000) ∧
    (∀ t₅ t₆ : Nat, ∀ s₅ : AuthHash, s₅.expires ≤ t₅ →
      sha256 ("s3cr3t" ++ "10" ++ "14" ++ "5") ≠ "" →
      (authToken sha256 (some "s3cr3t") ⟨t₅, 10, 14, 5⟩ none s₅).state.now =
        sha256 ("s3cr3t" ++ "10" ++ "14" ++ "5") ∧
      ((authToken sha256 (some "s3cr3t") ⟨t₅, 10, 14, 5⟩ none s₅).state.expires ≤ t₆ →
        (authToken sha256 (some "s3cr3t") ⟨t₆, 10, 14, 6⟩ none
            (authToken sha256 (some "s3cr3t") ⟨t₅, 10, 14, 5⟩ none s₅).state).state.prev =
          (authToken sha256 (some "s3cr3t") ⟨t₅, 10, 14, 5⟩ none s₅).state.now ∧
        (authToken sha256 (some "s3cr3t") ⟨t₆, 10, 14, 6⟩
            (some ((authToken sha256 (some "s3cr3t") ⟨t₅, 10, 14, 5⟩ none s₅).state.now))
            (authToken sha256 (some "s3cr3t") ⟨t₅, 10, 14, 5⟩ none s₅).state).result =
          .b true)) := by
  have hmsg5 : ∀ t : Nat, toHashMsg "s3cr3t" ⟨t, 10, 14, 5⟩ =
      "s3cr3t" ++ "10" ++ "14" ++ "5" := fun t => by
    rw [show toHashMsg "s3cr3t" ⟨t, 10, 14, 5⟩ = toHashMsg "s3cr3t" ⟨0, 10, 14, 5⟩ from rfl]
    decide
  have hprev6 : ∀ t : Nat, prevMinuteMsg "s3cr3t" ⟨t, 10, 14, 6⟩ =
      "s3cr3t" ++ "10" ++ "14" ++ "5" := fun t => by
    rw [show prevMinuteMsg "s3cr3t" ⟨t, 10, 14, 6⟩ =
      prevMinuteMsg "s3cr3t" ⟨0, 10, 14, 6⟩ from rfl]
    decide
  have hs : ("s3cr3t" : String) ≠ "" := by decide
  constructor
  · constructor <;>
      simp [authToken, Nat.not_lt.mpr hexp, ha, toHashMsg, authRespond, strTruthy]
  · intro t₅ t₆ s₅ h₅ hne
    have hne' : sha256 "s3cr3t10145" ≠ "" := by simpa using hne
    have st₅ : (authToken sha256 (some "s3cr3t") ⟨t₅, 10, 14, 5⟩ none s₅).state =
        ⟨sha256 ("s3cr3t" ++ "10" ++ "14" ++ "5"),
         sha256 (prevMinuteMsg "s3cr3t" ⟨t₅, 10, 14, 5⟩), t₅ + 60000⟩ := by
      simp [authToken, Nat.not_lt.mpr h₅, hs, authRespond, strTruthy, hmsg5 t₅]
    refine ⟨by rw [st₅], ?_⟩
    intro h₆
    rw [st₅] at h₆ ⊢
    have hn₆ : ¬ ((t₆ : Nat) < (t₅ + 60000)) := Nat.not_lt.mpr h₆
    constructor
    · simp [authToken, hn₆, hs, authRespond, strTruthy, hprev6 t₆]
    · have hts : strTruthy (some (sha256 "s3cr3t10145")) = true := by
        simp [strTruthy, hne']
      simp [authToken, hn₆, hs, authRespond, hts, _isValidHash, hprev6 t₆]

/-- C5, witness: the scenario evaluated with a concrete hash function. -/
theorem authToken_recompute_witness :
    (authToken wSha (some "a") ⟨5, 1, 2, 3⟩ none ⟨"", "", 5⟩).state.now =
      wSha ("a" ++ toString (1 : Nat) ++ toString (2 : Nat) ++ toString (3 : Nat)) ∧
    (authToken wSha (some "s3cr3t") ⟨100, 10, 14, 5⟩ none ⟨"", "", 0⟩).state.now =
      wSha ("s3cr3t" ++ "10" ++ "14" ++ "5") ∧
    (authToken wSha (some "s3cr3t") ⟨70000, 10, 14, 6⟩
        (some ((authToken wSha (some "s3cr3t") ⟨100, 10, 14, 5⟩ none ⟨"", "", 0⟩).state.now))
        (authToken wSha (some "s3cr3t") ⟨100, 10, 14, 5⟩ none ⟨"", "", 0⟩).state).result =
      .b true := by
  refine ⟨(authToken_recompute wSha "a" ⟨5, 1, 2, 3⟩ ⟨"", "", 5⟩ (by decide)
    (by decide)).1.1, ?_, ?_⟩
  · exact ((authToken_recompute wSha "s3cr3t" ⟨100, 10, 14, 5⟩ ⟨"", "", 0⟩ (by decide)
      (by decide)).2 100 70000 ⟨"", "", 0⟩ (by decide) (by decide)).1
  · exact (((authToken_recompute wSha "s3cr3t" ⟨100, 10, 14, 5⟩ ⟨"", "", 0⟩ (by decide)
      (by decide)).2 100 70000 ⟨"", "", 0⟩ (by decide) (by decide)).2 (by decide)).2

/-- C6: while `expiresAt` is strictly in the future, `authToken()` (no
test argument) returns the cached credential unchanged with no
recomputation and no log, and any two such calls in the same window
return identical results. -/
theorem authToken_cached (sha256 : String → String) (env : Option String)
    (d₁ d₂ : JsDate) (s : AuthHash) (h₁ : d₁.ms < s.expires) (h₂ : d₂.ms < s.expires) :
    authToken sha256 env d₁ none s = ⟨.cred s, s, []⟩ ∧
    authToken sha256 env d₁ none s = authToken sha256 env d₂ none s := by
  constructor <;> simp [authToken, h₁, h₂, authRespond, strTruthy]

/-- C6, witness: two in-window calls at different instants. -/
theorem authToken_cached_witness :
    authToken wSha (some "s") ⟨100, 10, 14, 5⟩ none ⟨"h1", "h0", 60100⟩ =
      ⟨.cred ⟨"h1", "h0", 60100⟩, ⟨"h1", "h0", 60100⟩, []⟩ ∧
    authToken wSha (some "s") ⟨100, 10, 14, 5⟩ none ⟨"h1", "h0", 60100⟩ =
      authToken wSha (some "s") ⟨60000, 10, 14, 6⟩ none ⟨"h1", "h0", 60100⟩ :=
  authToken_cached wSha (some "s") ⟨100, 10, 14, 5⟩ ⟨60000, 10, 14, 6⟩
    ⟨"h1", "h0", 60100⟩ (by decide) (by decide)

/-- The wrapped listeners of one emission all run: `eventCapture` never
lets a failure escape, so the iteration is never aborted and every
listener of the snapshot is invoked, in order, for every behavior. -/
lemma runListeners_ids (names : Nat → String) (behavior : Nat → CbOutcome)
    (l : List Subscription) :
    (runListeners names behavior l).1 = l.map (·.id) := by
  induction l with
  | nil => rfl
  | cons sub rest ih =>
    cases hb : behavior sub.id <;> simp [runListeners, eventCapture, hb, ih]

/-- The logs of one emission: exactly one log entry per failing listener,
carrying the name `eventCapture` was given. -/
lemma runListeners_logs (names : Nat → String) (behavior : Nat → CbOutcome)
    (l : List Subscription) :
    (runListeners names behavior l).2 =
      (l.filter (fun sub => !(behavior sub.id == CbOutcome.ok))).map
        (fun sub => "Error in event " ++ names sub.id ++ " callback") := by
  induction l with
  | nil => rfl
  | cons sub rest ih =>
    cases hb : behavior sub.id <;> simp [runListeners, eventCapture, hb, ih]

/-- In a subscription list with pairwise-distinct ids, the number of times
`sub.id` occurs among the ids fired by one emission of `ev` is 1 when
`sub` listens to `ev` and 0 otherwise. -/
lemma fired_count (s : List Subscription) (ev : String) (sub : Subscription)
    (hn : (s.map (·.id)).Nodup) (hmem : sub ∈ s) :
    ((s.filter (fun x => x.event == ev)).map (·.id)).count sub.id =
      if sub.event = ev then 1 else 0 := by
  have hsl : List.Sublist ((s.filter (fun x => x.event == ev)).map (·.id))
      (s.map (·.id)) :=
    (List.filter_sublist s).map _
  have hnd : ((s.filter (fun x => x.event == ev)).map (·.id)).Nodup :=
    List.Nodup.sublist hsl hn
  by_cases hev : sub.event = ev
  · rw [if_pos hev]
    exact List.count_eq_one_of_mem hnd
      (List.mem_map.mpr ⟨sub, List.mem_filter.mpr ⟨hmem, by simp [hev]⟩, rfl⟩)
  · rw [if_neg hev]
    refine List.count_eq_zero.mpr ?_
    intro hin
    obtain ⟨x, hxf, hxid⟩ := List.mem_map.mp hin
    obtain ⟨hxs, hxev⟩ := List.mem_filter.mp hxf
    have hxsub : x = sub := List.inj_on_of_nodup_map hn hxs hmem hxid
    rw [hxsub] at hxev
    exact hev (by simpa using hxev)

/-- After one emission of `ev`, a `once` subscription to `ev` has left the
subscription list, and (ids being pairwise distinct) no remaining
subscription carries its id. -/
lemma once_gone (s : List Subscription) (ev : String) (sub : Subscription)
    (hn : (s.map (·.id)).Nodup) (hmem : sub ∈ s)
    (hev : sub.event = ev) (ho : sub.once = true) :
    ∀ x ∈ s.filter (fun x => !(x.event == ev && x.once)), x.id ≠ sub.id := by
  intro x hx hxid
  obtain ⟨hxs, hxc⟩ := List.mem_filter.mp hx
  have hxsub : x = sub := List.inj_on_of_nodup_map hn hxs hmem hxid
  rw [hxsub] at hxc
  simp [hev, ho] at hxc

/-- A subscription that is not a fired `once` subscription survives the
emission. -/
lemma sub_kept (s : List Subscription) (ev : String) (sub : Subscription)
    (hmem : sub ∈ s) (h : sub.event ≠ ev ∨ sub.once = false) :
    sub ∈ s.filter (fun x => !(x.event == ev && x.once)) := by
  refine List.mem_filter.mpr ⟨hmem, ?_⟩
  rcases h with h | h <;> simp [h]

/-- A subscription id that no live subscription carries never fires again,
over any trace of emissions and any behavior. -/
lemma runTrace_count_zero (names : Nat → String) (behavior : Nat → CbOutcome)
    (tr : List String) :
    ∀ s : List Subscription, ∀ i : Nat, (∀ x ∈ s, x.id ≠ i) →
      (runTrace names behavior s tr).2.count i = 0 := by
  induction tr with
  | nil => intro s i _; simp [runTrace]
  | cons ev rest ih =>
    intro s i h
    have hstep : (runTrace names behavior s (ev :: rest)).2 =
        ((s.filter (fun x => x.event == ev)).map (·.id)) ++
          (runTrace names behavior
            (s.filter (fun x => !(x.event == ev && x.once))) rest).2 := by
      simp [runTrace, emitRun, runListeners_ids]
    rw [hstep, List.count_append]
    have h1 : ((s.filter (fun x => x.event == ev)).map (·.id)).count i = 0 := by
      refine List.count_eq_zero.mpr ?_
      intro hin
      obtain ⟨x, hxf, hxid⟩ := List.mem_map.mp hin
      exact h x (List.mem_filter.mp hxf).1 hxid
    have h2 := ih (s.filter (fun x => !(x.event == ev && x.once))) i
      (fun x hx => h x (List.mem_filter.mp hx).1)
    omega

/-- Invocation counts over a trace: a `once` subscription fires at most
once in total, a repeating one exactly once per emission of its event —
for every behavior of the handlers (success or failure). -/
lemma runTrace_counts (names : Nat → String) (behavior : Nat → CbOutcome)
    (tr : List String) :
    ∀ s : List Subscription, ∀ sub : Subscription,
      (s.map (·.id)).Nodup → sub ∈ s →
      (sub.once = true → (runTrace names behavior s tr).2.count sub.id ≤ 1) ∧
      (sub.once = false →
        (runTrace names behavior s tr).2.count sub.id = tr.count sub.event) := by
  induction tr with
  | nil => intro s sub _ _; simp [runTrace]
  | cons ev rest ih =>
    intro s sub hn hmem
    have hstep : (runTrace names behavior s (ev :: rest)).2 =
        ((s.filter (fun x => x.event == ev)).map (·.id)) ++
          (runTrace names behavior
            (s.filter (fun x => !(x.event == ev && x.once))) rest).2 := by
      simp [runTrace, emitRun, runListeners_ids]
    have hnd' : ((s.filter (fun x => !(x.event == ev && x.once))).map (·.id)).Nodup :=
      List.Nodup.sublist ((List.filter_sublist s).map _) hn
    rw [hstep, List.count_append, fired_count s ev sub hn hmem]
    constructor
    · intro ho
      by_cases hev : sub.event = ev
      · rw [if_pos hev]
        have h0 := runTrace_count_zero names behavior rest
          (s.filter (fun x => !(x.event == ev && x.once))) sub.id
          (once_gone s ev sub hn hmem hev ho)
        omega
      · rw [if_neg hev]
        have := (ih (s.filter (fun x => !(x.event == ev && x.once))) sub hnd'
          (sub_kept s ev sub hmem (Or.inl hev))).1 ho
        omega
    · intro ho
      have hrest := (ih (s.filter (fun x => !(x.event == ev && x.once))) sub hnd'
        (sub_kept s ev sub hmem (Or.inr ho))).2 ho
      by_cases hev : sub.event = ev
      · rw [if_pos hev, hrest]
        simp [List.count_cons, hev]
        omega
      · rw [if_neg hev, hrest]
        simp [List.count_cons, hev]

/-- C7, counterexample: a handler that rejects its promise (the callback
is invoked without `await` inside the `try`) is NOT contained — the
failure is not logged, no notification (`editReply`/`followUp`) is
attempted, and the rejection escapes the dispatcher boundary unobserved. -/
theorem commandHandler_reject_cex :
    ¬ ((commandHandler (fun _ => some CbOutcome.rejects) false
          ⟨true, "summary", false⟩).unobservedRejections = 0 ∧
       (commandHandler (fun _ => some CbOutcome.rejects) false
          ⟨true, "summary", false⟩).effects.count Effect.logError = 1 ∧
       (commandHandler (fun _ => some CbOutcome.rejects) false
          ⟨true, "summary", false⟩).effects.count Effect.followUp +
         (commandHandler (fun _ => some CbOutcome.rejects) false
            ⟨true, "summary", false⟩).effects.count Effect.editReply = 1) := by
  decide

/-- C7, amended: only SYNCHRONOUS throws are contained.  `commandHandler`
never throws synchronously for any handler outcome (so it can serve later
dispatches); for a synchronously-throwing handler the failure is logged
and exactly one best-effort notification is attempted — `editReply` when
a response was already sent, `followUp` otherwise — and a failing
notification only yields an unobserved rejection, never a propagated
error; but a handler whose promise rejects is not caught: nothing is
logged, no notification is attempted, and the rejection escapes
unobserved. -/
theorem commandHandler_contains_sync (commands : String → Option CbOutcome)
    (notifyFails : Bool) (i : Interaction) :
    (commandHandler commands notifyFails i).syncThrow = false ∧
    (i.isCmd = true → commands i.commandName = some CbOutcome.throws →
      (commandHandler commands notifyFails i).effects =
        [Effect.callbackRun i.commandName, Effect.logError,
         if i.replied then Effect.editReply else Effect.followUp] ∧
      (notifyFails = false →
        (commandHandler commands notifyFails i).unobservedRejections = 0)) ∧
    (i.isCmd = true → commands i.commandName = some CbOutcome.rejects →
      (commandHandler commands notifyFails i).effects =
        [Effect.callbackRun i.commandName] ∧
      (commandHandler commands notifyFails i).unobservedRejections = 1) := by
  refine ⟨?_, ?_, ?_⟩
  · by_cases hi : i.isCmd
    · cases hc : commands i.commandName with
      | none =>
        by_cases hk : i.commandName ∈ objectProtoKeys <;>
          simp [commandHandler, hi, hc, hk]
      | some o => cases o <;> simp [commandHandler, hi, hc]
    · simp [commandHandler, hi]
  · intro hi hc
    constructor
    · simp [commandHandler, hi, hc]
    · intro hnf
      simp [commandHandler, hi, hc, hnf]
  · intro hi hc
    constructor <;> simp [commandHandler, hi, hc]

/-- C7, witness: a synchronously-throwing handler on an
already-responded interaction yields log + `editReply` and nothing
escaping. -/
theorem commandHandler_contains_sync_witness :
    (commandHandler (fun _ => some CbOutcome.throws) false ⟨true, "x", true⟩).syncThrow
      = false ∧
    (commandHandler (fun _ => some CbOutcome.throws) false ⟨true, "x", true⟩).effects =
      [Effect.callbackRun "x", Effect.logError, Effect.editReply] ∧
    (commandHandler (fun _ => some CbOutcome.throws) false
      ⟨true, "x", true⟩).unobservedRejections = 0 := by
  have h := commandHandler_contains_sync (fun _ => some CbOutcome.throws) false
    ⟨true, "x", true⟩
  exact ⟨h.1, by simpa using (h.2.1 rfl rfl).1, (h.2.1 rfl rfl).2 rfl⟩

/-- C8: with pairwise-distinct subscription ids, across any trace of
emissions and any handler behavior, a `once` subscription fires at most
once in total (it is removed on its first firing, success or failure, and
never re-activated), and a `repeating` subscription fires exactly once
per emission of its event. -/
theorem once_at_most_once_repeating_per_emit (names : Nat → String)
    (behavior : Nat → CbOutcome) (s : List Subscription) (tr : List String)
    (sub : Subscription) (hn : (s.map (·.id)).Nodup) (hmem : sub ∈ s) :
    (sub.once = true → (runTrace names behavior s tr).2.count sub.id ≤ 1) ∧
    (sub.once = false →
      (runTrace names behavior s tr).2.count sub.id = tr.count sub.event) :=
  runTrace_counts names behavior tr s sub hn hmem

/-- C8, witness: two `emit("ready")` calls on a registry with a failing
`once` subscriber (fires once) and a `repeating` subscriber (fires
twice). -/
theorem once_at_most_once_repeating_per_emit_witness :
    (runTrace (fun _ => "ready.js") (fun _ => CbOutcome.throws)
      (registerEvents [⟨"ready.js", "ready", true⟩, ⟨"stats.js", "ready", false⟩])
      ["ready", "ready"]).2.count 0 ≤ 1 ∧
    (runTrace (fun _ => "ready.js") (fun _ => CbOutcome.throws)
      (registerEvents [⟨"ready.js", "ready", true⟩, ⟨"stats.js", "ready", false⟩])
      ["ready", "ready"]).2.count 1 = (["ready", "ready"] : List String).count "ready" :=
  ⟨(once_at_most_once_repeating_per_emit (fun _ => "ready.js") (fun _ => CbOutcome.throws)
      (registerEvents [⟨"ready.js", "ready", true⟩, ⟨"stats.js", "ready", false⟩])
      ["ready", "ready"] ⟨0, "ready", true⟩ (by decide) (by decide)).1 rfl,
   (once_at_most_once_repeating_per_emit (fun _ => "ready.js") (fun _ => CbOutcome.throws)
      (registerEvents [⟨"ready.js", "ready", true⟩, ⟨"stats.js", "ready", false⟩])
      ["ready", "ready"] ⟨1, "ready", false⟩ (by decide) (by decide)).2 rfl⟩

/-- C9: in one emission, every subscriber of the event is invoked whatever
the outcomes of the others (the `eventCapture` wrapper contains each
failure, so the listener iteration is never aborted), every failing
subscriber's error is caught and logged, and the post-emission
subscription state is the same as if every handler had succeeded, so
future emissions are unaffected. -/
theorem emit_isolates_failures (names : Nat → String) (behavior : Nat → CbOutcome)
    (s : List Subscription) (ev : String) :
    (emitRun names behavior s ev).2.1 =
      (s.filter (fun x => x.event == ev)).map (·.id) ∧
    (emitRun names behavior s ev).2.2 =
      ((s.filter (fun x => x.event == ev)).filter
        (fun x => !(behavior x.id == CbOutcome.ok))).map
        (fun x => "Error in event " ++ names x.id ++ " callback") ∧
    (emitRun names behavior s ev).1 = (emitRun names (fun _ => CbOutcome.ok) s ev).1 :=
  ⟨runListeners_ids names behavior (s.filter (fun x => x.event == ev)),
   runListeners_logs names behavior (s.filter (fun x => x.event == ev)), rfl⟩

/-- C10, counterexample: `"constructor"` is absent from the registry
`{ ping, summary }`, yet dispatching it is NOT a silent no-op —
`this.commands["constructor"]` finds the truthy inherited
`Object.prototype.constructor`, `.callback` is `undefined`, the call
throws a `TypeError`, and the catch logs and sends a failure
notification. -/
theorem commandHandler_unknown_cex :
    ¬ (commandHandler (fun _ => none) false ⟨true, "constructor", false⟩ =
        ⟨[], false, 0⟩) := by
  decide

/-- C10, amended: a registry-absent command name that `Object.prototype`
does not provide either is a silent no-op (no effect, no error, no
rejection; `commandHandler` touches no client state at all).  A
registry-absent name that IS an `Object.prototype` key (`"constructor"`,
`"toString"`, ...) passes the truthiness check, the call of the
`undefined` `.callback` throws a `TypeError`, and the catch contains it:
one log and one failure notification, nothing escaping synchronously.
In neither case is any registered handler invoked. -/
theorem commandHandler_unknown_spec (commands : String → Option CbOutcome)
    (notifyFails : Bool) (i : Interaction) (h : commands i.commandName = none) :
    (i.commandName ∉ objectProtoKeys →
      commandHandler commands notifyFails i = ⟨[], false, 0⟩) ∧
    (i.commandName ∈ objectProtoKeys → i.isCmd = true →
      commandHandler commands notifyFails i =
        ⟨[Effect.logError, if i.replied then Effect.editReply else Effect.followUp],
         false, if notifyFails then 1 else 0⟩) := by
  constructor
  · intro hk
    by_cases hi : i.isCmd <;> simp [commandHandler, hi, h, hk]
  · intro hk hi
    simp [commandHandler, hi, h, hk]

/-- C10, witness: a plain unknown name is a no-op; the inherited name
`"toString"` yields the contained `TypeError` path. -/
theorem commandHandler_unknown_spec_witness :
    commandHandler (fun _ => none) false ⟨true, "nonexistent", false⟩ = ⟨[], false, 0⟩ ∧
    commandHandler (fun _ => none) false ⟨true, "toString", true⟩ =
      ⟨[Effect.logError, Effect.editReply], false, 0⟩ := by
  constructor
  · exact (commandHandler_unknown_spec (fun _ => none) false
      ⟨true, "nonexistent", false⟩ rfl).1 (by decide)
  · have h := (commandHandler_unknown_spec (fun _ => none) false
      ⟨true, "toString", true⟩ rfl).2 (by decide) rfl
    simpa using h

end Nucleus
